import Mathlib

/-!
Verification of the schema-inference core of the football-data-analytics
repository (schema_generator.py), shallowly embedded in Lean 4.

Modelling conventions:
* Python strings are Lean strings (lists of characters).  The character
  class tests str.isalnum / str.isalpha are modelled on the ASCII plane,
  where Python's Unicode classification coincides with the ASCII one;
  theorems about the sanitizer therefore carry an ASCII hypothesis.
* A pandas Series of sampled column values is a list of optional strings,
  an absent entry (NaN) being none.
* The external pandas conversion pd.to_datetime(·, errors=coerce) is a
  parameter of the inference function: it receives the non-absent values
  and either raises (none) or returns, per value, an optional parsed
  timestamp (none being NaT).  A parsed timestamp carries its date part
  and its time-of-day part; midnight is time-of-day 0.
* Fallible Python code (the unguarded sanitized[0] access, which raises
  IndexError on an empty string) is modelled with Option.
* The orchestration entry point is modelled as a pure function from the
  read outcome to the list of side effects it performs.
-/

/-- Python str.isalnum on the ASCII plane: a letter A-Z, a-z or a digit 0-9. -/
def pyIsAlnum (c : Char) : Bool :=
  c.isAlphanum

/-- Python str.isalpha on the ASCII plane: a letter A-Z or a-z. -/
def pyIsAlpha (c : Char) : Bool :=
  c.isAlpha

/-- A timestamp as produced by the external datetime parser: a date part
(days) and the time-of-day part (fraction of the day, midnight being 0). -/
structure PdTimestamp where
  day : Int
  timeOfDay : Nat
deriving DecidableEq

/-- pandas Series.nunique: the number of distinct non-null values. -/
def nunique {α : Type} [DecidableEq α] (l : List (Option α)) : Nat :=
  (l.filterMap id).dedup.length

/-- The declared pandas storage dtype of a column, as dispatched on by
infer_bigquery_type: the int64 and non-int64 integer dtypes (the source
distinguishes them but maps both to INT64), float, bool, datetime64,
string, the generic object dtype, and any other dtype (e.g. categorical). -/
inductive PandasDType where
  | int64
  | intOther
  | float
  | bool
  | datetime
  | string
  | object
  | other
deriving DecidableEq

/-- Embedding of infer_bigquery_type(pandas_dtype, column_series) from
schema_generator.py.  pd_to_datetime models the external call
pd.to_datetime(column_series.dropna(), errors=coerce): none models the
raising branch caught by the except clause, and each none inside the
returned list models a value coerced to NaT.  The series values are
carried in textual form; the source only consults them for text-like
dtypes (and for the isnull check, whose two branches both pick NULLABLE). -/
def infer_bigquery_type
    (pd_to_datetime : List String → Option (List (Option PdTimestamp)))
    (pandas_dtype : PandasDType)
    (column_series : List (Option String)) : String × String :=
  let bq_mode := if column_series.any (fun v => v.isNone) then "NULLABLE" else "NULLABLE"
  let bq_type :=
    match pandas_dtype with
    | PandasDType.int64 => "INT64"
    | PandasDType.intOther => "INT64"
    | PandasDType.float => "FLOAT64"
    | PandasDType.bool => "BOOL"
    | PandasDType.datetime => "TIMESTAMP"
    | PandasDType.string =>
      match pd_to_datetime (column_series.filterMap id) with
      | none => "STRING"
      | some temp_series =>
        if !(temp_series.all (fun v => v.isNone)) then
          if 1 < nunique (temp_series.map (Option.map PdTimestamp.timeOfDay)) then
            "TIMESTAMP"
          else
            "DATE"
        else
          "STRING"
    | PandasDType.object =>
      match pd_to_datetime (column_series.filterMap id) with
      | none => "STRING"
      | some temp_series =>
        if !(temp_series.all (fun v => v.isNone)) then
          if 1 < nunique (temp_series.map (Option.map PdTimestamp.timeOfDay)) then
            "TIMESTAMP"
          else
            "DATE"
        else
          "STRING"
    | PandasDType.other => "STRING"
  (bq_type, bq_mode)

/-- The classification rule for text-like columns as the specification
words it: if parsing raises or no value parses, STRING; otherwise
TIMESTAMP exactly when more than one distinct time-of-day value occurs
among the successfully parsed values, and DATE otherwise.  Stated
independently of the source, to be compared with infer_bigquery_type. -/
def spec_text_classification
    (parseOutcome : Option (List (Option PdTimestamp))) : String :=
  match parseOutcome with
  | none => "STRING"
  | some parsed =>
    let ok := parsed.filterMap id
    if ok.isEmpty then "STRING"
    else if 1 < ((ok.map PdTimestamp.timeOfDay).dedup.length) then "TIMESTAMP"
    else "DATE"

/-- The character replacement of the sanitizer's first step: keep an
alphanumeric character or an underscore, replace anything else by an
underscore. -/
def pyReplChar (c : Char) : Char :=
  if pyIsAlnum c || c == '_' then c else '_'

/-- Steps 2 to 4 of the sanitizer, on the non-empty replaced character
list c0 :: cs: prepend an underscore when the first character is neither
a letter nor an underscore, split on underscores, keep the non-empty
segments (Python filter(None, ·)), rejoin with single underscores, and
truncate to 128 characters. -/
def sanitizeCollapse (c0 : Char) (cs : List Char) : List Char :=
  let sanitized2 := if !(pyIsAlpha c0) && !(c0 == '_') then '_' :: c0 :: cs else c0 :: cs
  (List.intercalate ['_'] ((sanitized2.splitOn '_').filter (fun s => !s.isEmpty))).take 128

/-- Embedding of sanitize_bigquery_column_name(name) from
schema_generator.py.  The unguarded sanitized[0] access raises IndexError
on the empty string, modelled by none. -/
def sanitize_bigquery_column_name (name : String) : Option String :=
  match name.data.map pyReplChar with
  | [] => none
  | c0 :: cs => some (String.mk (sanitizeCollapse c0 cs))

/-- The identifier pattern the specification claims for sanitized names,
following the spec's words: the first character a letter or underscore,
every further character alphanumeric or underscore (the empty string being
allowed for degenerate input).  Stated independently of the source, to be
compared with the sanitizer's actual output. -/
def matches_claimed_pattern (s : String) : Bool :=
  match s.data with
  | [] => true
  | c :: rest => (pyIsAlpha c || c == '_') && rest.all (fun d => pyIsAlnum d || d == '_')

/-- One output field of the inferred schema: the dictionary
(name, type, mode, description) appended per column. -/
structure FieldDescriptor where
  name : String
  type : String
  mode : String
  description : String
deriving DecidableEq

/-- One column of the in-memory dataframe produced by pd.read_csv:
its header, its inferred storage dtype and its sampled values.  pandas
guarantees the headers of a read dataframe are unique and non-empty
(empty header cells become Unnamed labels). -/
structure PdColumn where
  name : String
  dtype : PandasDType
  values : List (Option String)
deriving DecidableEq

/-- The in-memory dataframe: its columns in source order. -/
structure DataFrame where
  cols : List PdColumn
deriving DecidableEq

/-- Outcome of the external call pd.read_csv(csv_file_path, ...): success,
FileNotFoundError, or any other exception while reading or parsing. -/
inductive ReadResult where
  | ok (df : DataFrame)
  | fileNotFound (path : String)
  | readError (msg : String)
deriving DecidableEq

/-- The per-column loop of infer_bigquery_schema_from_csv: for each column
in order, sanitize the header, infer (type, mode), append the descriptor.
An IndexError raised by the sanitizer (empty header) aborts the loop and
propagates, since the try block only wraps the read: modelled by none. -/
def buildFields
    (pd_to_datetime : List String → Option (List (Option PdTimestamp))) :
    List PdColumn → Option (List FieldDescriptor)
  | [] => some []
  | col :: rest =>
    match sanitize_bigquery_column_name col.name with
    | none => none
    | some sanitized_bq_name =>
      let tm := infer_bigquery_type pd_to_datetime col.dtype col.values
      (buildFields pd_to_datetime rest).map (fun fs =>
        { name := sanitized_bq_name
          type := tm.1
          mode := tm.2
          description := "Inferred from CSV column '" ++ col.name ++ "'" } :: fs)

/-- Embedding of infer_bigquery_schema_from_csv(csv_file_path): the read
outcome stands for pd.read_csv at the given path.  Both except clauses
print an error and return the empty list; the result pairs the returned
schema with the lines printed.  none models an uncaught exception. -/
def infer_bigquery_schema_from_csv
    (pd_to_datetime : List String → Option (List (Option PdTimestamp)))
    (read : ReadResult) : Option (List FieldDescriptor × List String) :=
  match read with
  | ReadResult.fileNotFound path =>
    some ([], ["Error: CSV file not found at " ++ path])
  | ReadResult.readError msg =>
    some ([], ["Error reading CSV file: " ++ msg])
  | ReadResult.ok df =>
    (buildFields pd_to_datetime df.cols).map (fun fs => (fs, []))

/-- One observable side effect of the reference entry point. -/
inductive MainEffect where
  | printLine (s : String)
  | printSchema (schema : List FieldDescriptor)
  | writeSchemaFile (path : String) (schema : List FieldDescriptor)
deriving DecidableEq

/-- Embedding of the __main__ block of schema_generator.py: run inference
on the (hardcoded) input, then, if the schema is non-empty, print the
banner and the schema, write the JSON file and print the saved message;
otherwise print the failure message.  The effects are listed in program
order; none models an uncaught exception from inference. -/
def main_effects
    (pd_to_datetime : List String → Option (List (Option PdTimestamp)))
    (read : ReadResult) : Option (List MainEffect) :=
  (infer_bigquery_schema_from_csv pd_to_datetime read).map (fun r =>
    (r.2.map MainEffect.printLine) ++
    (if r.1.isEmpty then
      [MainEffect.printLine "Schema inference failed or returned an empty schema."]
    else
      [MainEffect.printLine "--- Inferred BigQuery Schema ---",
       MainEffect.printSchema r.1,
       MainEffect.writeSchemaFile "bigquery_schema_inferred.json" r.1,
       MainEffect.printLine "Inferred BigQuery schema saved to bigquery_schema_inferred.json"]))

/-! ## Helper lemmas -/

lemma sanitize_isSome_of_data_ne_nil {name : String} (h : name.data ≠ []) :
    (sanitize_bigquery_column_name name).isSome = true := by
  cases hd : name.data with
  | nil => exact absurd hd h
  | cons c cs => simp [sanitize_bigquery_column_name, hd]

/-! ## Claim theorems and witnesses -/

/-- C6: for every column, regardless of its declared dtype and of whether
any sampled value is absent, the mode returned by infer_bigquery_type is
NULLABLE; REQUIRED is never emitted. -/
theorem infer_mode_always_nullable
    (pd : List String → Option (List (Option PdTimestamp)))
    (dtype : PandasDType) (series : List (Option String)) :
    (infer_bigquery_type pd dtype series).2 = "NULLABLE" := by
  cases dtype <;> simp [infer_bigquery_type]

/-- C7: infer_bigquery_type maps the declared storage dtype in priority
order — integer-like (both int64 and other integer widths) to INT64,
floating-point to FLOAT64, boolean to BOOL, an already datetime-typed
column to TIMESTAMP — and for every non-text dtype the result is
independent of the date-parsing heuristic, which is consulted only for
text-like columns. -/
theorem declared_dtype_mapping
    (pd : List String → Option (List (Option PdTimestamp)))
    (series : List (Option String)) :
    (infer_bigquery_type pd PandasDType.int64 series).1 = "INT64" ∧
    (infer_bigquery_type pd PandasDType.intOther series).1 = "INT64" ∧
    (infer_bigquery_type pd PandasDType.float series).1 = "FLOAT64" ∧
    (infer_bigquery_type pd PandasDType.bool series).1 = "BOOL" ∧
    (infer_bigquery_type pd PandasDType.datetime series).1 = "TIMESTAMP" ∧
    (∀ pd2 : List String → Option (List (Option PdTimestamp)),
      infer_bigquery_type pd PandasDType.int64 series =
        infer_bigquery_type pd2 PandasDType.int64 series ∧
      infer_bigquery_type pd PandasDType.intOther series =
        infer_bigquery_type pd2 PandasDType.intOther series ∧
      infer_bigquery_type pd PandasDType.float series =
        infer_bigquery_type pd2 PandasDType.float series ∧
      infer_bigquery_type pd PandasDType.bool series =
        infer_bigquery_type pd2 PandasDType.bool series ∧
      infer_bigquery_type pd PandasDType.datetime series =
        infer_bigquery_type pd2 PandasDType.datetime series ∧
      infer_bigquery_type pd PandasDType.other series =
        infer_bigquery_type pd2 PandasDType.other series) :=
  ⟨rfl, rfl, rfl, rfl, rfl, fun _ => ⟨rfl, rfl, rfl, rfl, rfl, rfl⟩⟩

/-- C4: infer_bigquery_schema_from_csv never propagates a read failure:
on FileNotFoundError and on any other read or parse exception it returns
the empty schema (with the error line printed), never an error object,
never a partial schema, and never raises. -/
theorem read_failure_yields_empty_schema
    (pd : List String → Option (List (Option PdTimestamp)))
    (path msg : String) :
    infer_bigquery_schema_from_csv pd (ReadResult.fileNotFound path) =
      some ([], ["Error: CSV file not found at " ++ path]) ∧
    infer_bigquery_schema_from_csv pd (ReadResult.readError msg) =
      some ([], ["Error reading CSV file: " ++ msg]) :=
  ⟨rfl, rfl⟩

/-- C10: sanitize_bigquery_column_name is total on non-empty inputs, but
on the empty string the unguarded first-character access raises
IndexError (modelled by none) instead of returning a name. -/
theorem sanitize_total_iff_nonempty :
    (∀ name : String, name ≠ "" →
      (sanitize_bigquery_column_name name).isSome = true) ∧
    sanitize_bigquery_column_name "" = none := by
  constructor
  · intro name h
    apply sanitize_isSome_of_data_ne_nil
    intro hd
    apply h
    cases name with
    | mk data => cases hd; decide
  · rfl

theorem sanitize_total_iff_nonempty_wit :
    (sanitize_bigquery_column_name "a").isSome = true ∧
    sanitize_bigquery_column_name "" = none :=
  ⟨sanitize_total_iff_nonempty.1 "a" (by decide), sanitize_total_iff_nonempty.2⟩

/-- C2, counterexample: the header 1abc sanitizes to 1abc — the
underscore prepended in step 2 is removed again by the collapse step, so
the result starts with a digit and does not match the claimed pattern
(first character a letter or underscore), while being non-empty. -/
theorem sanitize_violates_claimed_pattern :
    sanitize_bigquery_column_name "1abc" = some "1abc" ∧
    matches_claimed_pattern "1abc" = false := by
  constructor <;> decide

/-- C3, counterexample: the all-symbol header sanitizes to the empty
string, on which a second application of the sanitizer raises IndexError
(modelled by none), so sanitization is not idempotent as claimed. -/
theorem sanitize_idempotence_counterexample :
    (sanitize_bigquery_column_name "!!!").bind sanitize_bigquery_column_name ≠
      sanitize_bigquery_column_name "!!!" := by
  decide

/-- C5, counterexample: two source headers that differ only in
punctuation both sanitize to A_B, so the schema for a dataframe with
columns A-B and A_B carries duplicate field names — the claimed pairwise
uniqueness after sanitization fails. -/
theorem sanitized_name_collision :
    (infer_bigquery_schema_from_csv (fun _ => none)
        (ReadResult.ok ⟨[⟨"A-B", PandasDType.string, []⟩,
                         ⟨"A_B", PandasDType.string, []⟩]⟩)).map
      (fun r => r.1.map FieldDescriptor.name) = some ["A_B", "A_B"] ∧
    ¬ List.Pairwise (fun a b : String => a ≠ b) ["A_B", "A_B"] := by
  constructor
  · rfl
  · decide

lemma filterMap_id_map_optMap {α β : Type} (f : α → β) (l : List (Option α)) :
    (l.map (Option.map f)).filterMap id = (l.filterMap id).map f := by
  induction l with
  | nil => rfl
  | cons a t ih => cases a <;> simp [ih]

lemma filterMap_optMap {α β : Type} (f : α → β) (l : List (Option α)) :
    l.filterMap (Option.map f) = (l.filterMap id).map f := by
  induction l with
  | nil => rfl
  | cons a t ih => cases a <;> simp [ih]

lemma all_isNone_eq_isEmpty {α : Type} (l : List (Option α)) :
    (l.all fun v => v.isNone) = (l.filterMap id).isEmpty := by
  induction l with
  | nil => rfl
  | cons a t ih => cases a <;> simp [ih]

/-- C1: for a text-like (string or object dtype) column,
infer_bigquery_type classifies exactly as the specification's rule on the
outcome of parsing the non-absent values: STRING when parsing raises or
no value parses, TIMESTAMP exactly when more than one distinct
time-of-day value occurs among the successfully parsed values, DATE
otherwise (in particular when every parsed value is midnight). -/
theorem text_dtype_matches_spec
    (pd : List String → Option (List (Option PdTimestamp)))
    (dtype : PandasDType)
    (hdtype : dtype = PandasDType.string ∨ dtype = PandasDType.object)
    (series : List (Option String)) :
    (infer_bigquery_type pd dtype series).1 =
      spec_text_classification (pd (series.filterMap id)) := by
  have key : ∀ temp : List (Option PdTimestamp),
      (if !(temp.all fun v => v.isNone) then
        (if 1 < nunique (temp.map (Option.map PdTimestamp.timeOfDay)) then
          "TIMESTAMP" else "DATE")
      else "STRING") =
      (if (temp.filterMap id).isEmpty then "STRING"
       else if 1 < (((temp.filterMap id).map PdTimestamp.timeOfDay).dedup.length) then
         "TIMESTAMP" else "DATE") := by
    intro temp
    rw [show (temp.all fun v => v.isNone) = (temp.filterMap id).isEmpty from
      all_isNone_eq_isEmpty temp]
    cases h : (temp.filterMap id).isEmpty <;>
      simp [h, nunique, filterMap_id_map_optMap, filterMap_optMap]
  rcases hdtype with rfl | rfl <;>
  · simp only [infer_bigquery_type, spec_text_classification]
    cases hpd : pd (series.filterMap id) with
    | none => rfl
    | some temp => exact key temp

theorem text_dtype_matches_spec_wit :
    (infer_bigquery_type
        (fun _ => some [some ⟨20024, 0⟩, some ⟨20025, 0⟩])
        PandasDType.string
        [some "2024-01-01 00:00:00", some "2024-01-02 00:00:00"]).1 =
      spec_text_classification
        ((fun _ : List String =>
            some [some (⟨20024, 0⟩ : PdTimestamp), some ⟨20025, 0⟩])
          ([some "2024-01-01 00:00:00",
            some "2024-01-02 00:00:00"].filterMap id)) ∧
    (infer_bigquery_type
        (fun _ => some [some ⟨20024, 0⟩, some ⟨20025, 0⟩])
        PandasDType.string
        [some "2024-01-01 00:00:00", some "2024-01-02 00:00:00"]).1 = "DATE" :=
  ⟨text_dtype_matches_spec _ _ (Or.inl rfl) _, by decide⟩

lemma data_ne_nil_of_ne_empty {name : String} (h : name ≠ "") : name.data ≠ [] := by
  intro hd
  apply h
  cases name with
  | mk data => cases hd; decide

lemma buildFields_spec
    (pd : List String → Option (List (Option PdTimestamp)))
    (cols : List PdColumn) (h : ∀ c ∈ cols, c.name ≠ "") :
    ∃ fs, buildFields pd cols = some fs ∧ fs.length = cols.length ∧
      ∀ (i : Nat) (hi : i < fs.length) (hi2 : i < cols.length),
        some (fs.get ⟨i, hi⟩).name =
          sanitize_bigquery_column_name (cols.get ⟨i, hi2⟩).name ∧
        (fs.get ⟨i, hi⟩).type =
          (infer_bigquery_type pd (cols.get ⟨i, hi2⟩).dtype
            (cols.get ⟨i, hi2⟩).values).1 ∧
        (fs.get ⟨i, hi⟩).mode =
          (infer_bigquery_type pd (cols.get ⟨i, hi2⟩).dtype
            (cols.get ⟨i, hi2⟩).values).2 ∧
        (fs.get ⟨i, hi⟩).description =
          "Inferred from CSV column '" ++ (cols.get ⟨i, hi2⟩).name ++ "'" := by
  induction cols with
  | nil =>
    exact ⟨[], rfl, rfl, fun i hi hi2 => absurd hi2 (Nat.not_lt_zero i)⟩
  | cons col rest ih =>
    have hcol : col.name ≠ "" := h col (List.mem_cons_self col rest)
    have hsome := sanitize_isSome_of_data_ne_nil (data_ne_nil_of_ne_empty hcol)
    obtain ⟨n, hn⟩ := Option.isSome_iff_exists.mp hsome
    obtain ⟨fs, hfs, hlen, hidx⟩ := ih (fun c hc => h c (List.mem_cons_of_mem _ hc))
    refine ⟨{ name := n
              type := (infer_bigquery_type pd col.dtype col.values).1
              mode := (infer_bigquery_type pd col.dtype col.values).2
              description := "Inferred from CSV column '" ++ col.name ++ "'" } :: fs,
            ?_, ?_, ?_⟩
    · simp [buildFields, hn, hfs]
    · simp [hlen]
    · intro i hi hi2
      cases i with
      | zero => exact ⟨hn.symm, rfl, rfl, rfl⟩
      | succ j =>
        exact hidx j (Nat.lt_of_succ_lt_succ (by simpa using hi))
          (Nat.lt_of_succ_lt_succ (by simpa using hi2))

/-- C5 (amended): for a readable dataframe whose headers are non-empty
(as pd.read_csv guarantees), the schema carries exactly one
FieldDescriptor per source column, in order, whose names are exactly the
sanitized headers; pairwise uniqueness of the sanitized names does NOT
hold in general (headers differing only in punctuation collide). -/
theorem schema_one_field_per_column
    (pd : List String → Option (List (Option PdTimestamp)))
    (df : DataFrame) (h : ∀ c ∈ df.cols, c.name ≠ "") :
    ∃ fs, infer_bigquery_schema_from_csv pd (ReadResult.ok df) = some (fs, []) ∧
      fs.length = df.cols.length ∧
      ∀ (i : Nat) (hi : i < fs.length) (hi2 : i < df.cols.length),
        some (fs.get ⟨i, hi⟩).name =
          sanitize_bigquery_column_name (df.cols.get ⟨i, hi2⟩).name := by
  obtain ⟨fs, hfs, hlen, hidx⟩ := buildFields_spec pd df.cols h
  exact ⟨fs, by simp [infer_bigquery_schema_from_csv, hfs], hlen,
    fun i hi hi2 => (hidx i hi hi2).1⟩

theorem schema_one_field_per_column_wit :
    ∃ fs, infer_bigquery_schema_from_csv (fun _ => none)
        (ReadResult.ok ⟨[⟨"A-B", PandasDType.string, []⟩,
                         ⟨"A_B", PandasDType.string, []⟩]⟩) = some (fs, []) ∧
      fs.length =
        (DataFrame.mk [⟨"A-B", PandasDType.string, []⟩,
                       ⟨"A_B", PandasDType.string, []⟩]).cols.length ∧
      ∀ (i : Nat) (hi : i < fs.length)
        (hi2 : i < (DataFrame.mk [⟨"A-B", PandasDType.string, []⟩,
                                  ⟨"A_B", PandasDType.string, []⟩]).cols.length),
        some (fs.get ⟨i, hi⟩).name =
          sanitize_bigquery_column_name
            (((DataFrame.mk [⟨"A-B", PandasDType.string, []⟩,
                             ⟨"A_B", PandasDType.string, []⟩]).cols.get
              ⟨i, hi2⟩)).name :=
  schema_one_field_per_column (fun _ => none) _ (by decide)

/-- C8: for a readable dataframe with n columns and non-empty headers (as
pd.read_csv guarantees), the schema has exactly n FieldDescriptors whose
order matches the source column order, each description referencing the
original, pre-sanitization column name. -/
theorem schema_preserves_column_order
    (pd : List String → Option (List (Option PdTimestamp)))
    (df : DataFrame) (h : ∀ c ∈ df.cols, c.name ≠ "") :
    ∃ fs, infer_bigquery_schema_from_csv pd (ReadResult.ok df) = some (fs, []) ∧
      fs.length = df.cols.length ∧
      ∀ (i : Nat) (hi : i < fs.length) (hi2 : i < df.cols.length),
        (fs.get ⟨i, hi⟩).description =
          "Inferred from CSV column '" ++ (df.cols.get ⟨i, hi2⟩).name ++ "'" := by
  obtain ⟨fs, hfs, hlen, hidx⟩ := buildFields_spec pd df.cols h
  exact ⟨fs, by simp [infer_bigquery_schema_from_csv, hfs], hlen,
    fun i hi hi2 => (hidx i hi hi2).2.2.2⟩

theorem schema_preserves_column_order_wit :
    ∃ fs, infer_bigquery_schema_from_csv (fun _ => none)
        (ReadResult.ok ⟨[⟨"Team Name!", PandasDType.object, [some "x"]⟩]⟩) =
        some (fs, []) ∧
      fs.length =
        (DataFrame.mk [⟨"Team Name!", PandasDType.object, [some "x"]⟩]).cols.length ∧
      ∀ (i : Nat) (hi : i < fs.length)
        (hi2 : i < (DataFrame.mk
            [⟨"Team Name!", PandasDType.object, [some "x"]⟩]).cols.length),
        (fs.get ⟨i, hi⟩).description =
          "Inferred from CSV column '" ++
            (((DataFrame.mk [⟨"Team Name!", PandasDType.object,
                [some "x"]⟩]).cols.get ⟨i, hi2⟩)).name ++ "'" :=
  schema_preserves_column_order (fun _ => none) _ (by decide)

/-- C9: at the reference entry point, a failure to read the input prints
the error and the failure message and performs no file write, while a
successful non-empty inference prints the banner and the schema, writes
the JSON schema file and prints the saved message, in program order. -/
theorem main_entry_point_behavior
    (pd : List String → Option (List (Option PdTimestamp))) :
    (∀ path, main_effects pd (ReadResult.fileNotFound path) =
      some [MainEffect.printLine ("Error: CSV file not found at " ++ path),
            MainEffect.printLine
              "Schema inference failed or returned an empty schema."]) ∧
    (∀ msg, main_effects pd (ReadResult.readError msg) =
      some [MainEffect.printLine ("Error reading CSV file: " ++ msg),
            MainEffect.printLine
              "Schema inference failed or returned an empty schema."]) ∧
    (∀ path effs, main_effects pd (ReadResult.fileNotFound path) = some effs →
      ∀ p sch, MainEffect.writeSchemaFile p sch ∉ effs) ∧
    (∀ msg effs, main_effects pd (ReadResult.readError msg) = some effs →
      ∀ p sch, MainEffect.writeSchemaFile p sch ∉ effs) ∧
    (∀ (df : DataFrame) (fs : List FieldDescriptor),
      buildFields pd df.cols = some fs → fs ≠ [] →
      main_effects pd (ReadResult.ok df) =
        some [MainEffect.printLine "--- Inferred BigQuery Schema ---",
              MainEffect.printSchema fs,
              MainEffect.writeSchemaFile "bigquery_schema_inferred.json" fs,
              MainEffect.printLine
                "Inferred BigQuery schema saved to bigquery_schema_inferred.json"]) := by
  refine ⟨fun path => rfl, fun msg => rfl, ?_, ?_, ?_⟩
  · intro path effs heffs p sch
    rw [show effs =
        [MainEffect.printLine ("Error: CSV file not found at " ++ path),
         MainEffect.printLine
           "Schema inference failed or returned an empty schema."] from
      Option.some_injective _ (by rw [← heffs]; rfl)]
    simp
  · intro msg effs heffs p sch
    rw [show effs =
        [MainEffect.printLine ("Error reading CSV file: " ++ msg),
         MainEffect.printLine
           "Schema inference failed or returned an empty schema."] from
      Option.some_injective _ (by rw [← heffs]; rfl)]
    simp
  · intro df fs hbuild hne
    simp [main_effects, infer_bigquery_schema_from_csv, hbuild, hne]

theorem main_entry_point_behavior_wit :
    main_effects (fun _ => none)
        (ReadResult.ok ⟨[⟨"goals", PandasDType.int64, [some "3"]⟩]⟩) =
      some [MainEffect.printLine "--- Inferred BigQuery Schema ---",
            MainEffect.printSchema
              [⟨"goals", "INT64", "NULLABLE", "Inferred from CSV column 'goals'"⟩],
            MainEffect.writeSchemaFile "bigquery_schema_inferred.json"
              [⟨"goals", "INT64", "NULLABLE", "Inferred from CSV column 'goals'"⟩],
            MainEffect.printLine
              "Inferred BigQuery schema saved to bigquery_schema_inferred.json"] :=
  (main_entry_point_behavior (fun _ => none)).2.2.2.2
    ⟨[⟨"goals", PandasDType.int64, [some "3"]⟩]⟩
    [⟨"goals", "INT64", "NULLABLE", "Inferred from CSV column 'goals'"⟩]
    (by decide) (by decide)

lemma intercalate_single {α : Type} (sep : List α) (a : List α) :
    List.intercalate sep [a] = a := by
  simp [List.intercalate]

lemma intercalate_cons₂ {α : Type} (sep a b : List α) (tl : List (List α)) :
    List.intercalate sep (a :: b :: tl) =
      a ++ sep ++ List.intercalate sep (b :: tl) := by
  simp [List.intercalate]

lemma mem_intercalate_cases {α : Type} {x c : α} {ls : List (List α)}
    (h : c ∈ List.intercalate [x] ls) : c = x ∨ ∃ s ∈ ls, c ∈ s := by
  induction ls with
  | nil => simp [List.intercalate] at h
  | cons a tl ih =>
    cases tl with
    | nil =>
      rw [intercalate_single] at h
      exact Or.inr ⟨a, List.mem_cons_self a [], h⟩
    | cons b tl2 =>
      rw [intercalate_cons₂] at h
      rcases List.mem_append.mp h with h1 | h2
      · rcases List.mem_append.mp h1 with h3 | h4
        · exact Or.inr ⟨a, List.mem_cons_self a _, h3⟩
        · exact Or.inl (List.mem_singleton.mp h4)
      · rcases ih h2 with h5 | ⟨s, hs, hcs⟩
        · exact Or.inl h5
        · exact Or.inr ⟨s, List.mem_cons_of_mem _ hs, hcs⟩

lemma mem_intercalate_of_mem {α : Type} {x c : α} {ls : List (List α)}
    {s : List α} (hs : s ∈ ls) (hc : c ∈ s) : c ∈ List.intercalate [x] ls := by
  induction ls with
  | nil => cases hs
  | cons a tl ih =>
    cases tl with
    | nil =>
      rw [intercalate_single]
      rw [List.mem_singleton.mp hs] at hc
      exact hc
    | cons b tl2 =>
      rw [intercalate_cons₂]
      rcases List.mem_cons.mp hs with rfl | hs2
      · exact List.mem_append_left _ (List.mem_append_left _ hc)
      · exact List.mem_append_right _ (ih hs2)

lemma splitOn_sep_not_mem {α : Type} [DecidableEq α] (x : α) (l : List α) :
    ∀ s ∈ l.splitOn x, x ∉ s := by
  induction l with
  | nil =>
    intro s hs
    rw [List.splitOn_nil, List.mem_singleton] at hs
    simp [hs]
  | cons c t ih =>
    intro s hs
    simp only [List.splitOn, List.splitOnP_cons] at hs ih
    by_cases hc : c = x
    · rw [if_pos (by simp [hc])] at hs
      rcases List.mem_cons.mp hs with rfl | hs2
      · simp
      · exact ih s hs2
    · rw [if_neg (by simp [hc])] at hs
      obtain ⟨hd, tl2, hr⟩ :=
        List.exists_cons_of_ne_nil (List.splitOnP_ne_nil _ t)
      rw [hr, List.modifyHead_cons] at hs
      rcases List.mem_cons.mp hs with rfl | hs2
      · intro hx
        rcases List.mem_cons.mp hx with h | hx2
        · exact hc h.symm
        · exact ih hd (by rw [hr]; exact List.mem_cons_self _ _) hx2
      · exact ih s (by rw [hr]; exact List.mem_cons_of_mem _ hs2)

lemma mem_of_mem_splitOn {α : Type} [DecidableEq α] {x c : α} {l s : List α}
    (hs : s ∈ l.splitOn x) (hc : c ∈ s) : c ∈ l := by
  have h := List.intercalate_splitOn l x
  rw [← h]
  exact mem_intercalate_of_mem hs hc

lemma exists_seg_of_mem {α : Type} [DecidableEq α] {x c : α} {l : List α}
    (hc : c ∈ l) (hcx : c ≠ x) : ∃ s ∈ l.splitOn x, c ∈ s := by
  have h := List.intercalate_splitOn l x
  rw [← h] at hc
  rcases mem_intercalate_cases hc with rfl | ⟨s, hs, hcs⟩
  · exact absurd rfl hcx
  · exact ⟨s, hs, hcs⟩

lemma length_intercalate_cons_le {α : Type} (x : α) (a : List α)
    (ls : List (List α)) :
    (List.intercalate [x] ls).length ≤ (List.intercalate [x] (a :: ls)).length := by
  cases ls with
  | nil => simp [List.intercalate]
  | cons b tl =>
    rw [intercalate_cons₂]
    simp only [List.length_append, List.length_singleton]
    omega

lemma length_intercalate_filter_le {α : Type} (x : α) (p : List α → Bool)
    (ls : List (List α)) :
    (List.intercalate [x] (ls.filter p)).length ≤
      (List.intercalate [x] ls).length := by
  induction ls with
  | nil => simp
  | cons a tl ih =>
    by_cases hpa : p a
    · rw [List.filter_cons_of_pos hpa]
      cases htl : tl.filter p with
      | nil =>
        rw [intercalate_single]
        cases tl with
        | nil => rw [intercalate_single]
        | cons b tl2 =>
          rw [intercalate_cons₂]
          simp only [List.length_append, List.length_singleton]
          omega
      | cons fb ftl =>
        cases tl with
        | nil => simp at htl
        | cons b tl2 =>
          rw [htl] at ih
          rw [intercalate_cons₂, intercalate_cons₂]
          simp only [List.length_append, List.length_singleton]
          omega
    · rw [List.filter_cons_of_neg hpa]
      exact le_trans ih (length_intercalate_cons_le x a tl)

lemma intercalate_ne_nil_head {α : Type} {x : α} {segs : List (List α)}
    {d0 : α} {w : List α} (hseg : ∀ s ∈ segs, s ≠ [])
    (h : List.intercalate [x] segs = d0 :: w) :
    ∃ s ∈ segs, ∃ t, s = d0 :: t := by
  cases segs with
  | nil => simp [List.intercalate] at h
  | cons s0 rest =>
    obtain ⟨f0, s0t, rfl⟩ :=
      List.exists_cons_of_ne_nil (hseg s0 (List.mem_cons_self _ _))
    cases rest with
    | nil =>
      rw [intercalate_single] at h
      exact ⟨f0 :: s0t, List.mem_cons_self _ _, s0t,
        by rw [List.cons.injEq] at h; rw [h.1]⟩
    | cons b tl =>
      rw [intercalate_cons₂] at h
      simp only [List.cons_append, List.cons.injEq] at h
      exact ⟨f0 :: s0t, List.mem_cons_self _ _, s0t, by rw [h.1]⟩

lemma intercalate_ne_nil {α : Type} {x : α} {segs : List (List α)}
    (hne : segs ≠ []) (hseg : ∀ s ∈ segs, s ≠ []) :
    List.intercalate [x] segs ≠ [] := by
  cases segs with
  | nil => exact absurd rfl hne
  | cons s0 rest =>
    have hs0 := hseg s0 (List.mem_cons_self _ _)
    cases rest with
    | nil => rw [intercalate_single]; exact hs0
    | cons b tl =>
      rw [intercalate_cons₂]
      simp [hs0]

lemma pyReplChar_shape (c : Char) :
    pyIsAlnum (pyReplChar c) = true ∨ pyReplChar c = '_' := by
  unfold pyReplChar
  by_cases h : (pyIsAlnum c || c == '_') = true
  · rw [if_pos h]
    rcases Bool.or_eq_true_iff.mp h with ha | hb
    · exact Or.inl ha
    · exact Or.inr (by simpa using hb)
  · rw [if_neg h]
    exact Or.inr rfl

lemma pyReplChar_fix_of_alnum {c : Char} (h : pyIsAlnum c = true) :
    pyReplChar c = c := by
  unfold pyReplChar
  rw [if_pos (by simp [h])]

lemma collapse_master (c0 : Char) (cs : List Char)
    (hchars : ∀ c ∈ c0 :: cs, pyIsAlnum c = true ∨ c = '_') :
    ∃ segs : List (List Char),
      sanitizeCollapse c0 cs = (List.intercalate ['_'] segs).take 128 ∧
      (∀ s ∈ segs, s ≠ []) ∧
      (∀ s ∈ segs, '_' ∉ s) ∧
      (∀ s ∈ segs, ∀ c ∈ s, pyIsAlnum c = true) ∧
      (List.intercalate ['_'] segs).length ≤ (c0 :: cs).length + 1 ∧
      ((∃ c ∈ c0 :: cs, pyIsAlnum c = true) → segs ≠ []) := by
  set s2 := (if !(pyIsAlpha c0) && !(c0 == '_') then '_' :: c0 :: cs else c0 :: cs)
    with hs2def
  have hs2chars : ∀ c ∈ s2, pyIsAlnum c = true ∨ c = '_' := by
    intro c hc
    rw [hs2def] at hc
    by_cases hb : (!(pyIsAlpha c0) && !(c0 == '_')) = true
    · rw [if_pos hb] at hc
      rcases List.mem_cons.mp hc with rfl | hc2
      · exact Or.inr rfl
      · exact hchars c hc2
    · rw [if_neg hb] at hc
      exact hchars c hc
  have hs2sub : ∀ c ∈ c0 :: cs, c ∈ s2 := by
    intro c hc
    rw [hs2def]
    by_cases hb : (!(pyIsAlpha c0) && !(c0 == '_')) = true
    · rw [if_pos hb]
      exact List.mem_cons_of_mem _ hc
    · rw [if_neg hb]
      exact hc
  have hs2len : s2.length ≤ (c0 :: cs).length + 1 := by
    rw [hs2def]
    by_cases hb : (!(pyIsAlpha c0) && !(c0 == '_')) = true
    · rw [if_pos hb]; simp
    · rw [if_neg hb]; simp
  have hcoll : sanitizeCollapse c0 cs =
      (List.intercalate ['_']
        ((s2.splitOn '_').filter (fun s => !s.isEmpty))).take 128 := by
    rw [hs2def]
    rfl
  refine ⟨(s2.splitOn '_').filter (fun s => !s.isEmpty), hcoll, ?_, ?_, ?_, ?_, ?_⟩
  · intro s hs
    have h2 := (List.mem_filter.mp hs).2
    intro hnil
    rw [hnil] at h2
    simp at h2
  · intro s hs
    exact splitOn_sep_not_mem '_' s2 s (List.mem_filter.mp hs).1
  · intro s hs c hc
    have hsep := splitOn_sep_not_mem '_' s2 s (List.mem_filter.mp hs).1
    have hmem := mem_of_mem_splitOn (List.mem_filter.mp hs).1 hc
    rcases hs2chars c hmem with ha | rfl
    · exact ha
    · exact absurd hc hsep
  · have h1 := length_intercalate_filter_le '_' (fun s => !s.isEmpty) (s2.splitOn '_')
    rw [List.intercalate_splitOn] at h1
    omega
  · rintro ⟨c, hc, hcal⟩
    have hcne : c ≠ '_' := by
      intro h
      rw [h] at hcal
      exact absurd hcal (by decide)
    obtain ⟨s, hsm, hcs⟩ := exists_seg_of_mem (hs2sub c hc) hcne
    have : s ∈ (s2.splitOn '_').filter (fun s => !s.isEmpty) :=
      List.mem_filter.mpr ⟨hsm, by
        have := List.ne_nil_of_mem hcs
        simpa using this⟩
    exact List.ne_nil_of_mem this

/-- C2 (amended): for every non-empty ASCII header, the sanitizer returns
a name of length at most 128 whose characters are all alphanumeric or
underscore and whose first character, when the name is non-empty, is
alphanumeric — a digit may lead, because the underscore prepended in step
2 is removed again by the collapse step, so the claimed pattern with a
leading letter or underscore does not hold; on the empty header the
sanitizer raises instead of returning. -/
theorem sanitize_output_shape (name : String) (h1 : name ≠ "")
    (h2 : ∀ c ∈ name.data, c.toNat < 128) :
    ∃ y, sanitize_bigquery_column_name name = some y ∧
      y.data.length ≤ 128 ∧
      (∀ c ∈ y.data, pyIsAlnum c = true ∨ c = '_') ∧
      (∀ d0 w, y.data = d0 :: w → pyIsAlnum d0 = true) := by
  cases hmap : name.data.map pyReplChar with
  | nil =>
    exact absurd (List.map_eq_nil_iff.mp hmap) (data_ne_nil_of_ne_empty h1)
  | cons c0 cs =>
    have hs : sanitize_bigquery_column_name name =
        some (String.mk (sanitizeCollapse c0 cs)) := by
      simp [sanitize_bigquery_column_name, hmap]
    have hchars : ∀ c ∈ c0 :: cs, pyIsAlnum c = true ∨ c = '_' := by
      rw [← hmap]
      intro c hc
      obtain ⟨c2, hc2, rfl⟩ := List.mem_map.mp hc
      exact pyReplChar_shape c2
    obtain ⟨segs, hcoll, hseg, hsep, hal, hlenic, hne⟩ :=
      collapse_master c0 cs hchars
    refine ⟨String.mk (sanitizeCollapse c0 cs), hs, ?_, ?_, ?_⟩
    · show (sanitizeCollapse c0 cs).length ≤ 128
      rw [hcoll, List.length_take]
      exact min_le_left _ _
    · show ∀ c ∈ sanitizeCollapse c0 cs, pyIsAlnum c = true ∨ c = '_'
      intro c hc
      rw [hcoll] at hc
      have hc2 := List.take_subset _ _ hc
      rcases mem_intercalate_cases hc2 with rfl | ⟨s, hsm, hcs⟩
      · exact Or.inr rfl
      · exact Or.inl (hal s hsm c hcs)
    · intro d0 w hw
      have hw2 : sanitizeCollapse c0 cs = d0 :: w := hw
      rw [hcoll] at hw2
      cases hic : List.intercalate ['_'] segs with
      | nil => rw [hic] at hw2; simp at hw2
      | cons e t =>
        rw [hic, show (128 : Nat) = 127 + 1 from rfl, List.take_succ_cons] at hw2
        have he : e = d0 := (List.cons.injEq _ _ _ _).mp hw2 |>.1
        obtain ⟨s, hsm, t2, hst⟩ := intercalate_ne_nil_head hseg hic
        have hd0 : d0 ∈ s := by
          rw [hst, ← he]
          exact List.mem_cons_self _ _
        exact hal s hsm d0 hd0

theorem sanitize_output_shape_wit :
    ∃ y, sanitize_bigquery_column_name "Team Name!" = some y ∧
      y.data.length ≤ 128 ∧
      (∀ c ∈ y.data, pyIsAlnum c = true ∨ c = '_') ∧
      (∀ d0 w, y.data = d0 :: w → pyIsAlnum d0 = true) :=
  sanitize_output_shape "Team Name!" (by decide) (by decide)

lemma sanitizeCollapse_fixpoint (segs : List (List Char)) (d0 : Char)
    (w : List Char) (hne : segs ≠ []) (hseg : ∀ s ∈ segs, s ≠ [])
    (hsep : ∀ s ∈ segs, '_' ∉ s)
    (hw : List.intercalate ['_'] segs = d0 :: w)
    (hlen : (d0 :: w).length ≤ 128) :
    sanitizeCollapse d0 w = d0 :: w := by
  have hsplit : (d0 :: w).splitOn '_' = segs := by
    rw [← hw]
    exact List.splitOn_intercalate segs '_' hsep hne
  have hfilter : segs.filter (fun s => !s.isEmpty) = segs :=
    List.filter_eq_self.mpr (fun s hs => by
      have := hseg s hs
      simpa using this)
  show (List.intercalate ['_']
      (((if !(pyIsAlpha d0) && !(d0 == '_') then '_' :: d0 :: w
         else d0 :: w).splitOn '_').filter (fun s => !s.isEmpty))).take 128 =
    d0 :: w
  by_cases hb : (!(pyIsAlpha d0) && !(d0 == '_')) = true
  · rw [if_pos hb]
    have hsplit2 : ('_' :: d0 :: w).splitOn '_' = [] :: segs := by
      have hstep : ('_' :: d0 :: w).splitOn '_' = [] :: (d0 :: w).splitOn '_' := by
        simp only [List.splitOn]
        rw [List.splitOnP_cons, if_pos (by simp)]
      rw [hstep, hsplit]
    rw [hsplit2]
    rw [show (([] : List Char) :: segs).filter (fun s => !s.isEmpty) = segs from by
      simp [hfilter]]
    rw [hw, List.take_of_length_le hlen]
  · rw [if_neg hb]
    rw [hsplit, hfilter, hw, List.take_of_length_le hlen]

/-- C3 (amended): sanitization is idempotent on every ASCII header that
contains at least one alphanumeric character and has length at most 127.
In full generality idempotence fails: an all-symbol header sanitizes to
the empty string, on which a second application raises IndexError, and a
header whose collapsed form is truncated at 128 characters right after an
underscore loses that trailing underscore on re-sanitization. -/
theorem sanitize_idempotent_on_regular (name : String)
    (hascii : ∀ c ∈ name.data, c.toNat < 128)
    (halnum : ∃ c ∈ name.data, pyIsAlnum c = true)
    (hlen : name.data.length ≤ 127) :
    (sanitize_bigquery_column_name name).bind sanitize_bigquery_column_name =
      sanitize_bigquery_column_name name := by
  obtain ⟨ca, hca, hcaal⟩ := halnum
  cases hmap : name.data.map pyReplChar with
  | nil =>
    exact absurd (List.map_eq_nil_iff.mp hmap) (List.ne_nil_of_mem hca)
  | cons c0 cs =>
    have hs : sanitize_bigquery_column_name name =
        some (String.mk (sanitizeCollapse c0 cs)) := by
      simp [sanitize_bigquery_column_name, hmap]
    have hchars : ∀ c ∈ c0 :: cs, pyIsAlnum c = true ∨ c = '_' := by
      rw [← hmap]
      intro c hc
      obtain ⟨c2, hc2, rfl⟩ := List.mem_map.mp hc
      exact pyReplChar_shape c2
    obtain ⟨segs, hcoll, hseg, hsep, hal, hlenic, hne⟩ :=
      collapse_master c0 cs hchars
    have hlencs : (c0 :: cs).length = name.data.length := by
      rw [← hmap, List.length_map]
    have hic128 : (List.intercalate ['_'] segs).length ≤ 128 := by omega
    have hsegs_ne : segs ≠ [] := by
      refine hne ⟨ca, ?_, hcaal⟩
      rw [← hmap]
      exact List.mem_map.mpr ⟨ca, hca, pyReplChar_fix_of_alnum hcaal⟩
    cases hic : List.intercalate ['_'] segs with
    | nil => exact absurd hic (intercalate_ne_nil hsegs_ne hseg)
    | cons d0 w =>
      have hlen2 : (d0 :: w).length ≤ 128 := by
        rw [← hic]
        exact hic128
      have htake : sanitizeCollapse c0 cs = d0 :: w := by
        rw [hcoll, hic, List.take_of_length_le hlen2]
      rw [hs, htake]
      show sanitize_bigquery_column_name (String.mk (d0 :: w)) =
        some (String.mk (d0 :: w))
      have hfix : (d0 :: w).map pyReplChar = d0 :: w := by
        have hall : ∀ c ∈ d0 :: w, pyReplChar c = c := by
          intro c hc
          rw [← hic] at hc
          rcases mem_intercalate_cases hc with rfl | ⟨s, hsm, hcs⟩
          · decide
          · exact pyReplChar_fix_of_alnum (hal s hsm c hcs)
        calc (d0 :: w).map pyReplChar = (d0 :: w).map id :=
              List.map_congr_left hall
          _ = d0 :: w := List.map_id _
      show (match (d0 :: w).map pyReplChar with
            | [] => none
            | c1 :: cs1 => some (String.mk (sanitizeCollapse c1 cs1))) =
        some (String.mk (d0 :: w))
      rw [hfix]
      show some (String.mk (sanitizeCollapse d0 w)) =
        some (String.mk (d0 :: w))
      rw [sanitizeCollapse_fixpoint segs d0 w hsegs_ne hseg hsep hic hlen2]

theorem sanitize_idempotent_on_regular_wit :
    (sanitize_bigquery_column_name "Team Name!").bind
        sanitize_bigquery_column_name =
      sanitize_bigquery_column_name "Team Name!" :=
  sanitize_idempotent_on_regular "Team Name!" (by decide) (by decide) (by decide)
